import Mathlib

/-!
# Verification of the slack-release-monitor extraction pipeline

Shallow embedding of the core extraction pipeline of the
`thormodsen/slack-release-monitor` repository:

* `src/release-extractor.ts` — `ReleaseExtractor.extractReleases`,
  `formatMessage`, `parseReleasesFromResponse`;
* `src/state-manager.ts` — `StateManager.getUnprocessedMessages`,
  `markProcessed`;
* `src/index.ts` — the `run` driver (fetch → filter → extract → mark).

JavaScript strings are modelled by Lean `String`/`List Char`; `JSON.parse`
is modelled by an executable recursive-descent parser below; the external
`jsonrepair` dependency is an explicit functional parameter
`repair : String → Option String` (`none` models a thrown `JSONRepairError`).
Console logging, the `DUMP_LLM_INPUT` file dump and the Langfuse telemetry
(trace/generation events) are side channels that never influence the
extraction outcome and are omitted from the model.
-/

namespace SlackReleaseMonitor

/-! ## Character-level string utilities

The pipeline uses JavaScript `trim`, `split('\n')`, `join('\n')`,
`startsWith` and `includes`.  They are modelled on `List Char` so that the
fence-stripping algebra can be proved by list induction.
-/

/-- The whitespace characters relevant to the texts handled by the pipeline
(JavaScript `trim` additionally strips exotic Unicode whitespace, which
never occurs here). -/
def isWsChar (c : Char) : Bool :=
  c = ' ' || c = '\t' || c = '\n' || c = '\r'

/-- Model of JavaScript `String.prototype.trim` on character lists. -/
def trimChars (l : List Char) : List Char :=
  ((l.dropWhile isWsChar).reverse.dropWhile isWsChar).reverse

/-- Model of JavaScript `String.prototype.trim`. -/
def strTrim (s : String) : String :=
  String.mk (trimChars s.data)

/-- Model of JavaScript `s.split('\n')`: splits at every newline, keeping
empty segments; the empty string yields `[""]`. -/
def splitNl : List Char → List (List Char)
  | [] => [[]]
  | c :: cs =>
    if c = '\n' then [] :: splitNl cs
    else
      match splitNl cs with
      | h :: t => (c :: h) :: t
      | [] => [[c]]

/-- Model of JavaScript `lines.join('\n')`. -/
def joinNl : List (List Char) → List Char
  | [] => []
  | [l] => l
  | l :: ls => l ++ '\n' :: joinNl ls

/-- `subOccurs pat l` models JavaScript `l.includes(pat)`. -/
def subOccurs (pat : List Char) : List Char → Bool
  | [] => pat.isEmpty
  | c :: cs => pat.isPrefixOf (c :: cs) || subOccurs pat cs

/-- Model of JavaScript `s.includes(pat)`. -/
def strIncludes (s pat : String) : Bool :=
  subOccurs pat.data s.data

/-- Model of JavaScript `s.startsWith(pat)`. -/
def strStartsWith (s pat : String) : Bool :=
  pat.data.isPrefixOf s.data

/-! ## JSON values and a model of `JSON.parse`

`JSON.parse` is modelled by an executable recursive-descent parser over
`List Char` with a fuel argument (the input length suffices).  Numbers are
kept as their source lexeme: no claim depends on numeric values, only on
parse success and on the shape of the parsed value.
-/

/-- A parsed JSON value.  Numbers keep their lexeme. -/
inductive Json where
  | null : Json
  | bool (b : Bool) : Json
  | num (lexeme : String) : Json
  | str (s : String) : Json
  | arr (elems : List Json) : Json
  | obj (fields : List (String × Json)) : Json

/-- Skip JSON insignificant whitespace (space, tab, newline, carriage
return), exactly the set accepted by `JSON.parse`. -/
def skipWs : List Char → List Char
  | c :: cs => if c = ' ' || c = '\t' || c = '\n' || c = '\r' then skipWs cs else c :: cs
  | [] => []

/-- Longest digit run at the front of the input. -/
def takeDigits : List Char → List Char × List Char
  | c :: cs =>
    if c.isDigit then
      match takeDigits cs with
      | (ds, rest) => (c :: ds, rest)
    else ([], c :: cs)
  | [] => ([], [])

/-- The integer part of a JSON number: `0`, or a nonzero digit followed by
digits.  `JSON.parse` rejects leading zeros. -/
def parseIntPart : List Char → Option (List Char × List Char)
  | '0' :: cs =>
    match cs with
    | d :: _ => if d.isDigit then none else some (['0'], cs)
    | [] => some (['0'], [])
  | c :: cs =>
    if c.isDigit then
      match takeDigits cs with
      | (ds, rest) => some (c :: ds, rest)
    else none
  | [] => none

/-- The optional fraction part `.digits` of a JSON number. -/
def parseFracPart : List Char → Option (List Char × List Char)
  | '.' :: cs =>
    match takeDigits cs with
    | ([], _) => none
    | (ds, rest) => some ('.' :: ds, rest)
  | cs => some ([], cs)

/-- The optional exponent part `[eE][+-]?digits` of a JSON number. -/
def parseExpPart : List Char → Option (List Char × List Char)
  | c :: cs =>
    if c = 'e' || c = 'E' then
      match cs with
      | s :: cs2 =>
        if s = '+' || s = '-' then
          match takeDigits cs2 with
          | ([], _) => none
          | (ds, rest) => some (c :: s :: ds, rest)
        else
          match takeDigits cs with
          | ([], _) => none
          | (ds, rest) => some (c :: ds, rest)
      | [] => none
    else some ([], c :: cs)
  | [] => some ([], [])

/-- A JSON number at the front of the input, returned as its lexeme. -/
def parseNumber (cs : List Char) : Option (String × List Char) :=
  let (sign, cs1) := match cs with
    | '-' :: r => (['-'], r)
    | _ => (([] : List Char), cs)
  match parseIntPart cs1 with
  | none => none
  | some (ip, cs2) =>
    match parseFracPart cs2 with
    | none => none
    | some (fp, cs3) =>
      match parseExpPart cs3 with
      | none => none
      | some (ep, cs4) => some (String.mk (sign ++ ip ++ fp ++ ep), cs4)

/-- Is `c` a hexadecimal digit? -/
def isHexDigit (c : Char) : Bool :=
  c.isDigit || ('a' ≤ c && c ≤ 'f') || ('A' ≤ c && c ≤ 'F')

/-- Numeric value of a hexadecimal digit. -/
def hexVal (c : Char) : Nat :=
  if c.isDigit then c.toNat - '0'.toNat
  else if 'a' ≤ c && c ≤ 'f' then c.toNat - 'a'.toNat + 10
  else c.toNat - 'A'.toNat + 10

/-- The body of a JSON string, after the opening quote: characters up to
the closing quote with the escapes `JSON.parse` accepts; unescaped control
characters are rejected. -/
def parseStringRest : Nat → List Char → Option (List Char × List Char)
  | 0, _ => none
  | _, [] => none
  | fuel + 1, c :: rest =>
    if c = '"' then some ([], rest)
    else if c = '\\' then
      match rest with
      | [] => none
      | e :: rest2 =>
        if e = '"' || e = '\\' || e = '/' then
          match parseStringRest fuel rest2 with
          | some (s, r) => some (e :: s, r)
          | none => none
        else if e = 'b' then
          match parseStringRest fuel rest2 with
          | some (s, r) => some (Char.ofNat 8 :: s, r)
          | none => none
        else if e = 'f' then
          match parseStringRest fuel rest2 with
          | some (s, r) => some (Char.ofNat 12 :: s, r)
          | none => none
        else if e = 'n' then
          match parseStringRest fuel rest2 with
          | some (s, r) => some ('\n' :: s, r)
          | none => none
        else if e = 'r' then
          match parseStringRest fuel rest2 with
          | some (s, r) => some ('\r' :: s, r)
          | none => none
        else if e = 't' then
          match parseStringRest fuel rest2 with
          | some (s, r) => some ('\t' :: s, r)
          | none => none
        else if e = 'u' then
          match rest2 with
          | h1 :: h2 :: h3 :: h4 :: rest3 =>
            if isHexDigit h1 && isHexDigit h2 && isHexDigit h3 && isHexDigit h4 then
              let v := ((hexVal h1 * 16 + hexVal h2) * 16 + hexVal h3) * 16 + hexVal h4
              match parseStringRest fuel rest3 with
              | some (s, r) => some (Char.ofNat v :: s, r)
              | none => none
            else none
          | _ => none
        else none
    else if c.toNat < 32 then none
    else
      match parseStringRest fuel rest with
      | some (s, r) => some (c :: s, r)
      | none => none

mutual

/-- A JSON value at the front of the input (no leading whitespace). -/
def parseValue : Nat → List Char → Option (Json × List Char)
  | 0, _ => none
  | fuel + 1, cs =>
    match cs with
    | 'n' :: 'u' :: 'l' :: 'l' :: rest => some (.null, rest)
    | 't' :: 'r' :: 'u' :: 'e' :: rest => some (.bool true, rest)
    | 'f' :: 'a' :: 'l' :: 's' :: 'e' :: rest => some (.bool false, rest)
    | '"' :: rest =>
      match parseStringRest (rest.length + 1) rest with
      | some (s, r) => some (.str (String.mk s), r)
      | none => none
    | '[' :: rest =>
      match skipWs rest with
      | ']' :: r => some (.arr [], r)
      | rest2 =>
        match parseElems fuel rest2 with
        | some (es, r) => some (.arr es, r)
        | none => none
    | '{' :: rest =>
      match skipWs rest with
      | '}' :: r => some (.obj [], r)
      | rest2 =>
        match parseFields fuel rest2 with
        | some (fs, r) => some (.obj fs, r)
        | none => none
    | _ =>
      match parseNumber cs with
      | some (lex, r) => some (.num lex, r)
      | none => none

/-- The elements of a JSON array after `[`, first element already known to
be non-`]`. -/
def parseElems : Nat → List Char → Option (List Json × List Char)
  | 0, _ => none
  | fuel + 1, cs =>
    match parseValue fuel cs with
    | none => none
    | some (v, rest) =>
      match skipWs rest with
      | ',' :: r =>
        match parseElems fuel (skipWs r) with
        | some (es, r2) => some (v :: es, r2)
        | none => none
      | ']' :: r => some ([v], r)
      | _ => none

/-- The fields of a JSON object after `{`, first field already known to
be non-`}`. -/
def parseFields : Nat → List Char → Option (List (String × Json) × List Char)
  | 0, _ => none
  | fuel + 1, cs =>
    match cs with
    | '"' :: rest =>
      match parseStringRest (rest.length + 1) rest with
      | none => none
      | some (k, r1) =>
        match skipWs r1 with
        | ':' :: r2 =>
          match parseValue fuel (skipWs r2) with
          | none => none
          | some (v, r3) =>
            match skipWs r3 with
            | ',' :: r4 =>
              match parseFields fuel (skipWs r4) with
              | some (fs, r5) => some ((String.mk k, v) :: fs, r5)
              | none => none
            | '}' :: r4 => some ([(String.mk k, v)], r4)
            | _ => none
        | _ => none
    | _ => none

end

/-- Model of JavaScript `JSON.parse`: one value, optionally surrounded by
whitespace, nothing after it. -/
def jsonParse (s : String) : Option Json :=
  match parseValue (2 * s.data.length + 2) (skipWs s.data) with
  | some (v, rest) => if skipWs rest = [] then some v else none
  | none => none

/-! ## The response parser
(`ReleaseExtractor.parseReleasesFromResponse`, `release-extractor.ts`)

The TypeScript code casts the parsed JSON to `Release[]` without inspecting
the elements (`JSON.parse(input) as Release[]`), so the parsed "releases"
are raw JSON values; the model therefore returns `List Json`.
The external `jsonrepair` dependency is a parameter
`repair : String → Option String`, where `none` models a thrown
`JSONRepairError`.
-/

/-- A classified parse failure: `format` is the markdown diagnosis
("returned markdown instead of JSON"), `parse` the generic failure
("Failed to parse JSON response from LLM, even after repair."). -/
inductive ParseFailure where
  | format : ParseFailure
  | parse : ParseFailure
deriving DecidableEq

/-- The fence-stripping prelude of `parseReleasesFromResponse`
(`release-extractor.ts` lines 280–289): trim; if the text starts with
a fence marker, drop the first line and a trailing line that trims to
exactly the marker, re-join and trim again. -/
def stripFence (textContent : String) : String :=
  let jsonText := trimChars textContent.data
  if ('`' :: '`' :: '`' :: []).isPrefixOf jsonText then
    let lines := (splitNl jsonText).drop 1
    let lines2 :=
      match lines.getLast? with
      | some last => if trimChars last = ('`' :: '`' :: '`' :: []) then lines.dropLast else lines
      | none => lines
    String.mk (trimChars (joinNl lines2))
  else String.mk jsonText

/-- The inner `tryParse` closure of `parseReleasesFromResponse`: a JSON
array is returned as-is; any other successfully parsed JSON value becomes
the empty list; a parse throw becomes `none`. -/
def tryParse (input : String) : Option (List Json) :=
  match jsonParse input with
  | some (Json.arr xs) => some xs
  | some _ => some []
  | none => none

/-- The markdown-signal test of `parseReleasesFromResponse`
(`release-extractor.ts` lines 360–363): applied to the *original* response
text (not the fence-stripped one); the two `startsWith` tests use the
trimmed text, the two `includes` tests the raw text. -/
def markdownSignal (textContent : String) : Bool :=
  strStartsWith (strTrim textContent) "#" ||
  strStartsWith (strTrim textContent) "```" ||
  strIncludes textContent "###" ||
  strIncludes textContent "##"

/-- Model of `ReleaseExtractor.parseReleasesFromResponse`: fence-strip,
direct parse, repair-then-parse, then failure classification on the
original text.  The Langfuse trace/generation bookkeeping of the source is
telemetry only and omitted. -/
def parseReleasesFromResponse (repair : String → Option String)
    (textContent : String) : Except ParseFailure (List Json) :=
  let jsonText := stripFence textContent
  match tryParse jsonText with
  | some parsed => .ok parsed
  | none =>
    let classified : Except ParseFailure (List Json) :=
      if markdownSignal textContent then .error .format else .error .parse
    match repair jsonText with
    | some repaired =>
      match tryParse repaired with
      | some repairedParsed => .ok repairedParsed
      | none => classified
    | none => classified

/-- A degenerate repair instance used to instantiate witnesses: a repair
function that always fails (`jsonrepair` throws `JSONRepairError` on
inputs it cannot repair, e.g. on input without any JSON content). -/
def repairNone : String → Option String := fun _ => none

/-! ## Messages and the normalizer
(`SlackMessage`, `slack-client.ts`; `ReleaseExtractor.formatMessage`)

`SlackMessage` is recursive through `threadReplies`, so it is an inductive
type with field projections.  The `appId`/`botId`/`subtype` fields are
consumed only by the out-of-scope `SlackClient` bot filtering and are
omitted.
-/

/-- A Slack message (`SlackMessage`, `slack-client.ts`): opaque id, text,
epoch-second timestamp string, author id, optional author name, optional
thread replies. -/
inductive SlackMessage where
  | mk (id : String) (text : String) (timestamp : String) (userId : String)
      (username : Option String) (threadReplies : Option (List SlackMessage)) :
      SlackMessage

/-- The message id. -/
def SlackMessage.id : SlackMessage → String
  | .mk i _ _ _ _ _ => i

/-- The message text. -/
def SlackMessage.text : SlackMessage → String
  | .mk _ t _ _ _ _ => t

/-- The epoch-second timestamp string. -/
def SlackMessage.timestamp : SlackMessage → String
  | .mk _ _ ts _ _ _ => ts

/-- The author user id. -/
def SlackMessage.userId : SlackMessage → String
  | .mk _ _ _ u _ _ => u

/-- The optional author display name. -/
def SlackMessage.username : SlackMessage → Option String
  | .mk _ _ _ _ n _ => n

/-- The optional thread replies. -/
def SlackMessage.threadReplies : SlackMessage → Option (List SlackMessage)
  | .mk _ _ _ _ _ r => r

/-- Whole epoch seconds of a Slack timestamp string such as
`"1705312800.000100"`: the leading digit run (the model of `parseFloat`
restricted to the canonical non-negative decimal timestamps Slack
produces). -/
def tsWholeSeconds (ts : String) : Nat :=
  (ts.data.takeWhile Char.isDigit).foldl (fun n c => 10 * n + (c.toNat - '0'.toNat)) 0

/-- Civil date from a count of days since 1970-01-01 (proleptic Gregorian,
the calendar `Date.prototype.toISOString` uses). -/
def civilFromDays (z : Nat) : Nat × Nat × Nat :=
  let z := z + 719468
  let era := z / 146097
  let doe := z % 146097
  let yoe := (doe - doe / 1460 + doe / 36524 - doe / 146096) / 365
  let y := yoe + era * 400
  let doy := doe - (365 * yoe + yoe / 4 - yoe / 100)
  let mp := (5 * doy + 2) / 153
  let d := doy - (153 * mp + 2) / 5 + 1
  let m := if mp < 10 then mp + 3 else mp - 9
  (if m ≤ 2 then y + 1 else y, m, d)

/-- Left-pad a numeral to two digits. -/
def pad2 (n : Nat) : String :=
  if n < 10 then "0" ++ toString n else toString n

/-- Left-pad a numeral to four digits (years here are 1970+). -/
def pad4 (n : Nat) : String :=
  if n < 10 then "000" ++ toString n
  else if n < 100 then "00" ++ toString n
  else if n < 1000 then "0" ++ toString n
  else toString n

/-- The UTC calendar date of an epoch-second timestamp string, as
`YYYY-MM-DD`: the model of
`new Date(parseFloat(ts) * 1000).toISOString().split('T')[0]`. -/
def isoDateOf (ts : String) : String :=
  match civilFromDays (tsWholeSeconds ts / 86400) with
  | (y, m, d) => pad4 y ++ "-" ++ pad2 m ++ "-" ++ pad2 d

/-- The author label of a thread reply:
`reply.username || 'user-' + reply.userId.substring(0, 8)` — the empty
username string is falsy in JavaScript and also falls back. -/
def replyAuthorLabel (reply : SlackMessage) : String :=
  match reply.username with
  | some u => if u = "" then "user-" ++ (reply.userId.take 8) else u
  | none => "user-" ++ (reply.userId.take 8)

/-- One formatted thread-reply line of `formatMessage`. -/
def formatReplyLine (reply : SlackMessage) : String :=
  "  └─ [" ++ reply.id ++ "] [" ++ isoDateOf reply.timestamp ++ "] @" ++
    replyAuthorLabel reply ++ ": " ++ reply.text

/-- Model of `ReleaseExtractor.formatMessage` (`release-extractor.ts`
lines 254–270): the parent line tagged with id and derived date, then, if
there is at least one thread reply, a thread header and one line per reply
in original order. -/
def formatMessage (message : SlackMessage) : String :=
  let messageText :=
    "[" ++ message.id ++ "] [" ++ isoDateOf message.timestamp ++ "] " ++ message.text
  match message.threadReplies with
  | some (r :: rs) =>
    messageText ++ "\n  [Thread replies (" ++ toString (r :: rs).length ++ "):]\n" ++
      String.intercalate "\n" ((r :: rs).map formatReplyLine)
  | _ => messageText

/-! ## The extraction engine
(`ReleaseExtractor.extractReleases`, `release-extractor.ts` lines 40–252)

The completion endpoint is external; it is modelled by an oracle
`responses : Nat → CompletionRequest → CompletionResponse` giving the
response to the `k`-th request of the run (the loop issues exactly one
request per message, in message order, so request `k` belongs to message
`k`).  The model additionally counts network calls and parser invocations
and records the progress-callback invocations, so that "no network call",
"parser not invoked" and "callback not invoked" are stateable.
-/

/-- The configuration values the extractor reads from a Langfuse prompt
(`OpenRouterConfig`, `release-extractor.ts`).  `temperature`/`top_p` flow
opaquely into the request and are kept as raw strings; the two header
overrides never influence extraction and are omitted. -/
structure LangfuseConfig where
  model : Option String := none
  maxTokens : Option Nat := none
  temperature : Option String := none
  topP : Option String := none

/-- The result of `langfuse.getPromptWithConfig('release-extraction')`. -/
structure LangfuseResult where
  prompt : String
  config : LangfuseConfig

/-- One request body sent to the completion endpoint (`requestBody`,
`release-extractor.ts` lines 160–176): resolved model and max_tokens, the
single user message content, optional sampling parameters. -/
structure CompletionRequest where
  model : String
  maxTokens : Nat
  content : String
  temperature : Option String
  topP : Option String

/-- One response of the completion endpoint: HTTP status information and
the extracted `choices[0].message.content` (`none` when the path is
absent).  The JavaScript guard `if (!textContent)` also treats the empty
string as missing. -/
structure CompletionResponse where
  ok : Bool
  status : Nat
  statusText : String
  errorBody : String
  content : Option String

/-- `data.choices?.[0]?.message?.content` followed by the falsy test
`if (!textContent)`: the empty string counts as no content. -/
def contentText (r : CompletionResponse) : Option String :=
  match r.content with
  | some c => if c = "" then none else some c
  | none => none

/-- The errors `extractReleases` can throw, per the taxonomy of spec §7:
configuration errors (thrown before any network call), transport errors
(non-success HTTP response) and classified parser failures. -/
inductive ExtractError where
  | configuration (msg : String) : ExtractError
  | transport (status : Nat) (statusText : String) (body : String) : ExtractError
  | parseFail (f : ParseFailure) : ExtractError
deriving DecidableEq

/-- Error message for a missing `release-extraction` prompt
(`release-extractor.ts` lines 61–64). -/
def promptNotFoundMsg : String :=
  "Langfuse is enabled but prompt \x22release-extraction\x22 was not found. " ++
  "Please create the prompt in Langfuse or disable Langfuse in your configuration."

/-- Error message when Langfuse is disabled (`release-extractor.ts`
lines 97–100). -/
def langfuseRequiredMsg : String :=
  "Langfuse is required for release extraction. " ++
  "Please configure Langfuse in your settings or enable it in your configuration."

/-- Observable side effects of one `extractReleases` call: the number of
completion requests issued, the number of `parseReleasesFromResponse`
invocations, and the recorded `onProgress` invocations (accumulated
releases snapshot and message index). -/
structure ExtractStats where
  calls : Nat
  parseCalls : Nat
  progress : List (List Json × Nat)

/-- Result and observable side effects of one `extractReleases` call. -/
structure ExtractOutcome where
  result : Except ExtractError (List Json)
  stats : ExtractStats

/-- The environment of a run: whether Langfuse is enabled, the outcome of
the prompt lookup, the external repair function, and the completion
endpoint oracle. -/
structure ExtractEnv where
  langfuseEnabled : Bool
  promptLookup : Option LangfuseResult
  repair : String → Option String
  responses : Nat → CompletionRequest → CompletionResponse

/-- The model resolved from the Langfuse config
(`config.model || this.defaultModel`; the empty string is falsy). -/
def resolveModel (cfg : LangfuseConfig) : String :=
  match cfg.model with
  | some m => if m = "" then "anthropic/claude-sonnet-4" else m
  | none => "anthropic/claude-sonnet-4"

/-- The max_tokens resolved from the Langfuse config
(`config.max_tokens || this.defaultMaxTokens`; `0` is falsy). -/
def resolveMaxTokens (cfg : LangfuseConfig) : Nat :=
  match cfg.maxTokens with
  | some n => if n = 0 then 4096 else n
  | none => 4096

/-- The request built for one message (`release-extractor.ts`
lines 117–118 and 160–176): the prompt, a fixed separator and the
normalized message. -/
def buildRequest (prompt : String) (cfg : LangfuseConfig) (message : SlackMessage) :
    CompletionRequest :=
  { model := resolveModel cfg
    maxTokens := resolveMaxTokens cfg
    content := prompt ++ "\n\nMessage to analyze:\n\n" ++ formatMessage message
    temperature := cfg.temperature
    topP := cfg.topP }

/-- The per-message loop of `extractReleases` (`release-extractor.ts`
lines 116–249): issue one request; abort with a transport error on a
non-success response; skip the message when the response has no content;
otherwise parse, abort on a classified parser failure, and on success
append the parsed entries and record the progress invocation. -/
def extractLoop (prompt : String) (cfg : LangfuseConfig)
    (repair : String → Option String)
    (responses : Nat → CompletionRequest → CompletionResponse) :
    Nat → List SlackMessage → List Json → Nat → Nat → List (List Json × Nat) →
    ExtractOutcome
  | _, [], acc, calls, parseCalls, progress =>
    ⟨.ok acc, calls, parseCalls, progress⟩
  | idx, message :: rest, acc, calls, parseCalls, progress =>
    let r := responses idx (buildRequest prompt cfg message)
    if r.ok then
      match contentText r with
      | none =>
        extractLoop prompt cfg repair responses (idx + 1) rest acc (calls + 1)
          parseCalls progress
      | some c =>
        match parseReleasesFromResponse repair c with
        | .error e => ⟨.error (.parseFail e), calls + 1, parseCalls + 1, progress⟩
        | .ok parsed =>
          extractLoop prompt cfg repair responses (idx + 1) rest (acc ++ parsed)
            (calls + 1) (parseCalls + 1) (progress ++ [(acc ++ parsed, idx)])
    else
      ⟨.error (.transport r.status r.statusText r.errorBody), calls + 1, parseCalls,
        progress⟩

/-- Model of `ReleaseExtractor.extractReleases`: the empty batch returns
immediately; otherwise the prompt is resolved (failing fatally when
Langfuse is enabled but the lookup comes back empty, or when Langfuse is
disabled) before the per-message loop runs. -/
def extractReleases (env : ExtractEnv) (messages : List SlackMessage) :
    ExtractOutcome :=
  if messages.isEmpty then ⟨.ok [], 0, 0, []⟩
  else if env.langfuseEnabled then
    match env.promptLookup with
    | none => ⟨.error (.configuration promptNotFoundMsg), 0, 0, []⟩
    | some lr =>
      extractLoop lr.prompt lr.config env.repair env.responses 0 messages [] 0 0 []
  else ⟨.error (.configuration langfuseRequiredMsg), 0, 0, []⟩

/-! ## The dedup tracker and the run driver
(`StateManager`, `state-manager.ts`; `run`, `index.ts`)

The in-memory `Set<string>` of processed ids is modelled as a duplicate-
free insertion-ordered list, with `Set.add` semantics for insertion.
-/

/-- Model of `StateManager.getUnprocessedMessages`: keep, in input order,
the messages whose id is not in the processed set.  Pure: the processed
set is read, never changed. -/
def getUnprocessedMessages (processedIds : List String)
    (messages : List SlackMessage) : List SlackMessage :=
  messages.filter (fun msg => !(processedIds.contains msg.id))

/-- Model of `StateManager.markProcessed`: add every given id to the set
(`Set.add`: ignored when already present).  The subsequent persistence
write stores exactly the returned set. -/
def markProcessed (processedIds : List String) (ids : List String) : List String :=
  ids.foldl (fun s i => if s.contains i then s else s ++ [i]) processedIds

/-- Model of the `run` driver (`index.ts` lines 100–141) from the point
the messages are fetched: filter out processed ids, return early on an
empty remainder, extract, and only after a fully successful extraction
mark the whole batch processed.  Returns the extraction result and the
final persisted processed set. -/
def runModel (env : ExtractEnv) (processedIds : List String)
    (allMessages : List SlackMessage) :
    Except ExtractError (List Json) × List String :=
  let unprocessed := getUnprocessedMessages processedIds allMessages
  if unprocessed.isEmpty then (.ok [], processedIds)
  else
    match (extractReleases env unprocessed).result with
    | .error e => (.error e, processedIds)
    | .ok releases =>
      (.ok releases, markProcessed processedIds (unprocessed.map SlackMessage.id))

/-! ## Derived predicates and specification-side definitions -/

/-- Does the per-message step for message `message` at call index `k`
complete without aborting the batch?  True exactly when the response is a
success and, if it carries content, that content parses (directly or via
repair). -/
def stepOk (prompt : String) (cfg : LangfuseConfig) (repair : String → Option String)
    (responses : Nat → CompletionRequest → CompletionResponse)
    (k : Nat) (message : SlackMessage) : Bool :=
  let r := responses k (buildRequest prompt cfg message)
  r.ok &&
    (match contentText r with
     | none => true
     | some c =>
       match parseReleasesFromResponse repair c with
       | .ok _ => true
       | .error _ => false)

/-- Do all messages of a list complete their step without aborting,
starting at call index `k`? -/
def prefixOk (prompt : String) (cfg : LangfuseConfig) (repair : String → Option String)
    (responses : Nat → CompletionRequest → CompletionResponse) :
    Nat → List SlackMessage → Bool
  | _, [] => true
  | k, m :: rest =>
    stepOk prompt cfg repair responses k m &&
      prefixOk prompt cfg repair responses (k + 1) rest

/-- The releases one message contributes to a successful batch: nothing
when the response carries no content, otherwise the full parsed list. -/
def msgContribution (prompt : String) (cfg : LangfuseConfig)
    (repair : String → Option String)
    (responses : Nat → CompletionRequest → CompletionResponse)
    (k : Nat) (message : SlackMessage) : List Json :=
  match contentText (responses k (buildRequest prompt cfg message)) with
  | none => []
  | some c =>
    match parseReleasesFromResponse repair c with
    | .ok xs => xs
    | .error _ => []

/-- The concatenated per-message contributions of a batch, in message
order, starting at call index `k`. -/
def batchContributions (prompt : String) (cfg : LangfuseConfig)
    (repair : String → Option String)
    (responses : Nat → CompletionRequest → CompletionResponse) :
    Nat → List SlackMessage → List Json
  | _, [] => []
  | k, m :: rest =>
    msgContribution prompt cfg repair responses k m ++
      batchContributions prompt cfg repair responses (k + 1) rest

/-- Wrap a response text in a fenced code block: an opening ```` ```json ````
line before it and a closing ```` ``` ```` line after it. -/
def wrapFence (t : String) : String :=
  "```json\n" ++ t ++ "\n```"

/-- Specification-side reading of the normalizer's parent line (claim C7 /
spec §4.1): the message's own line tagged with its id and the UTC calendar
date derived from the epoch timestamp. -/
def parentLineSpec (m : SlackMessage) : String :=
  "[" ++ m.id ++ "] [" ++ isoDateOf m.timestamp ++ "] " ++ m.text

/-- Specification-side reading of a reply's author label (claim C7): the
author's name when present and non-empty, otherwise a short placeholder
derived from the author id. -/
def authorLabelSpec (reply : SlackMessage) : String :=
  match reply.username with
  | some u => if u = "" then "user-" ++ reply.userId.take 8 else u
  | none => "user-" ++ reply.userId.take 8

/-- Specification-side reading of one normalized thread-reply line (claim
C7): the reply tagged with its own id, derived date and author label. -/
def replyLineSpec (reply : SlackMessage) : String :=
  "  └─ [" ++ reply.id ++ "] [" ++ isoDateOf reply.timestamp ++ "] @" ++
    authorLabelSpec reply ++ ": " ++ reply.text

/-! ## Concrete fixtures for witnesses and counterexamples -/

/-- A message fixture with no thread. -/
def fixtureMsg (i : String) : SlackMessage :=
  .mk i ("text-" ++ i) "1705312800.000100" "U1" none none

/-- Message `m1`. -/
def msgM1 : SlackMessage := fixtureMsg "m1"

/-- Message `m2`. -/
def msgM2 : SlackMessage := fixtureMsg "m2"

/-- Message `m3`. -/
def msgM3 : SlackMessage := fixtureMsg "m3"

/-- A successful completion response with the given body content. -/
def respOkBody (c : String) : CompletionResponse :=
  ⟨true, 200, "OK", "", some c⟩

/-- An HTTP 500 completion response. -/
def resp500 : CompletionResponse :=
  ⟨false, 500, "Internal Server Error", "boom", none⟩

/-- A prompt-lookup fixture. -/
def promptRes : LangfuseResult := ⟨"PROMPT", {}⟩

/-- An environment whose endpoint answers the second request (call index
1) with HTTP 500 and every other request with an empty-array body. -/
def envTransport : ExtractEnv :=
  ⟨true, some promptRes, repairNone,
    fun k _ => if k = 1 then resp500 else respOkBody "[]"⟩

/-- An environment with Langfuse enabled but no prompt found. -/
def envNoPrompt : ExtractEnv :=
  ⟨true, none, repairNone, fun _ _ => respOkBody "[]"⟩

/-- An environment whose endpoint always answers with a two-element JSON
array body. -/
def envTwoReleases : ExtractEnv :=
  ⟨true, some promptRes, repairNone, fun _ _ => respOkBody "[1,2]"⟩

/-- An endpoint whose first response is a success with empty content and
whose later responses carry an empty-array body. -/
def respsEmptyFirst : Nat → CompletionRequest → CompletionResponse :=
  fun k _ => if k = 0 then ⟨true, 200, "OK", "", some ""⟩ else respOkBody "[]"

/-- A thread-reply fixture with a named author. -/
def replyR1 : SlackMessage :=
  .mk "r1" "first reply" "1705399200.000200" "U123456789" (some "alice") none

/-- A thread-reply fixture with no author name. -/
def replyR2 : SlackMessage :=
  .mk "r2" "second reply" "1705485600.000300" "UABCDEFGH" none none

/-- A parent message fixture with two thread replies. -/
def msgParent : SlackMessage :=
  .mk "m1" "v2.1.0 released" "1705312800.000100" "U1" (some "bob")
    (some [replyR1, replyR2])

/-- The elements of a JSON array; the empty list for any other JSON
value. -/
def jsonArrElems : Json → List Json
  | .arr xs => xs
  | _ => []

/-! ## Shared lemmas -/

/-- A successful `JSON.parse` makes `tryParse` succeed: an array yields its
elements, any other JSON value the empty list. -/
theorem tryParse_of_parse {s : String} {v : Json} (h : jsonParse s = some v) :
    tryParse s = some (jsonArrElems v) := by
  unfold tryParse
  rw [h]
  cases v <;> rfl

/-- A direct parse success short-circuits the rest of the pipeline. -/
theorem parseReleases_of_tryParse_some {repair : String → Option String}
    {t : String} {rs : List Json} (h : tryParse (stripFence t) = some rs) :
    parseReleasesFromResponse repair t = .ok rs := by
  unfold parseReleasesFromResponse
  simp only [h]

/-! ## C8 — empty batch -/

/-- C8: for the empty message batch, `extractReleases` returns the empty
release list and performs zero network calls (and, returning before prompt
resolution, also zero parser invocations and zero progress callbacks). -/
theorem empty_batch_no_calls (env : ExtractEnv) :
    extractReleases env [] = ⟨.ok [], 0, 0, []⟩ := rfl

/-! ## C2 — missing prompt fails fatally before any network call -/

/-- C2: for every non-empty batch, if Langfuse is enabled but the prompt
lookup returns nothing, `extractReleases` fails with the configuration
error (no built-in default prompt is substituted) and issues zero network
calls. -/
theorem missing_prompt_fatal (env : ExtractEnv) (messages : List SlackMessage)
    (hne : messages ≠ []) (hen : env.langfuseEnabled = true)
    (hlk : env.promptLookup = none) :
    (extractReleases env messages).result = .error (.configuration promptNotFoundMsg) ∧
    (extractReleases env messages).stats.calls = 0 := by
  cases messages with
  | nil => exact absurd rfl hne
  | cons m ms => simp [extractReleases, hen, hlk]

/-- Witness for C2 at a concrete one-message batch. -/
theorem missing_prompt_fatal_witness :
    (extractReleases envNoPrompt [msgM1]).result =
      .error (.configuration promptNotFoundMsg) ∧
    (extractReleases envNoPrompt [msgM1]).stats.calls = 0 :=
  missing_prompt_fatal envNoPrompt [msgM1] (List.cons_ne_nil _ _) rfl rfl

/-! ## C6 — valid non-array JSON is an empty release list; arrays pass
through unchecked -/

/-- C6: when the (fence-stripped) response text parses as JSON, a
non-array value yields the empty release list with no error, and an array
is returned as-is, its elements not type-checked. -/
theorem non_array_json_empty (repair : String → Option String) (t : String)
    (v : Json) (h : jsonParse (stripFence t) = some v) :
    ((∀ xs, v ≠ Json.arr xs) → parseReleasesFromResponse repair t = .ok []) ∧
    (∀ xs, v = Json.arr xs → parseReleasesFromResponse repair t = .ok xs) := by
  have htp := tryParse_of_parse h
  constructor
  · intro hv
    have helems : jsonArrElems v = [] := by
      cases v with
      | arr xs => exact absurd rfl (hv xs)
      | null => rfl
      | bool b => rfl
      | num l => rfl
      | str s => rfl
      | obj fs => rfl
    rw [helems] at htp
    exact parseReleases_of_tryParse_some htp
  · intro xs hxs
    subst hxs
    exact parseReleases_of_tryParse_some htp

/-- Witness for C6 at the response `{"not":"an array"}` (spec §8). -/
theorem non_array_json_empty_witness :
    parseReleasesFromResponse repairNone "\x7b\x22not\x22:\x22an array\x22\x7d" = .ok [] :=
  (non_array_json_empty repairNone "\x7b\x22not\x22:\x22an array\x22\x7d"
      (Json.obj [("not", Json.str "an array")]) rfl).1
    (fun _ h => Json.noConfusion h)

/-! ## C3 — failure classification -/

/-- C3: when both the direct parse and the repair-then-parse of a response
fail, the failure is the markdown diagnosis `FormatError` exactly when the
original (un-fence-stripped) text shows markdown signals — it starts
(after whitespace trimming) with `#` or with ` ``` `, or contains `##` or
`###` anywhere — and the generic `ParseError` otherwise; either failure
aborts the extraction batch. -/
theorem failure_classification (repair : String → Option String) (t : String)
    (h1 : tryParse (stripFence t) = none)
    (h2 : ∀ r, repair (stripFence t) = some r → tryParse r = none) :
    (parseReleasesFromResponse repair t = .error .format ↔ markdownSignal t = true) ∧
    (parseReleasesFromResponse repair t = .error .parse ↔ markdownSignal t = false) ∧
    (∀ f, parseReleasesFromResponse repair t = .error f →
      ∀ prompt cfg responses idx message rest acc calls parseCalls progress,
        (responses idx (buildRequest prompt cfg message)).ok = true →
        contentText (responses idx (buildRequest prompt cfg message)) = some t →
        (extractLoop prompt cfg repair responses idx (message :: rest)
            acc calls parseCalls progress).result = .error (.parseFail f)) := by
  have hcl : parseReleasesFromResponse repair t =
      if markdownSignal t then .error .format else .error .parse := by
    unfold parseReleasesFromResponse
    simp only [h1]
    cases hrep : repair (stripFence t) with
    | none => rfl
    | some r => simp only [h2 r hrep]
  refine ⟨?_, ?_, ?_⟩
  · rw [hcl]
    cases hmk : markdownSignal t <;> simp
  · rw [hcl]
    cases hmk : markdownSignal t <;> simp
  · intro f hf prompt cfg responses idx message rest acc calls parseCalls progress hok hct
    simp [extractLoop, hok, hct, hf]

/-- Witness for C3 at the prose response `# Summary` (spec §8), with a
repair instance that fails on it. -/
theorem failure_classification_witness :
    parseReleasesFromResponse repairNone "# Summary" = .error .format :=
  ((failure_classification repairNone "# Summary" rfl
      (fun _ h => Option.noConfusion h)).1).mpr rfl

/-! ## C10 — successful response without content is skipped -/

/-- C10: a successful response whose body carries no message content
(absent or empty `choices[0].message.content`) makes the loop skip the
message entirely: the accumulated releases, the parser-invocation count
and the recorded progress callbacks are all left unchanged, no error is
raised, and processing continues with the remaining messages (one more
network call having been made). -/
theorem empty_content_skipped (prompt : String) (cfg : LangfuseConfig)
    (repair : String → Option String)
    (responses : Nat → CompletionRequest → CompletionResponse)
    (idx : Nat) (message : SlackMessage) (rest : List SlackMessage)
    (acc : List Json) (calls parseCalls : Nat) (progress : List (List Json × Nat))
    (hok : (responses idx (buildRequest prompt cfg message)).ok = true)
    (hct : contentText (responses idx (buildRequest prompt cfg message)) = none) :
    extractLoop prompt cfg repair responses idx (message :: rest)
        acc calls parseCalls progress =
      extractLoop prompt cfg repair responses (idx + 1) rest
        acc (calls + 1) parseCalls progress := by
  simp [extractLoop, hok, hct]

/-- Witness for C10: the first response is HTTP 200 with empty content, so
the first message is skipped and the loop continues on the second. -/
theorem empty_content_skipped_witness :
    extractLoop "PROMPT" {} repairNone respsEmptyFirst 0 [msgM1, msgM2] [] 0 0 [] =
      extractLoop "PROMPT" {} repairNone respsEmptyFirst 1 [msgM2] [] 1 0 [] :=
  empty_content_skipped "PROMPT" {} repairNone respsEmptyFirst 0 msgM1 [msgM2]
    [] 0 0 [] rfl rfl

/-! ## C4 — dedup filter and marking -/

/-- A processed set never contains an id exactly when membership fails. -/
theorem contains_eq_false_iff {s : List String} {x : String} :
    s.contains x = false ↔ x ∉ s := by
  rw [← List.elem_iff]
  show s.elem x = false ↔ ¬s.elem x = true
  cases s.elem x <;> simp

/-- Membership in a marked set: an id is in `markProcessed s ids` exactly
when it was already tracked or is among the newly marked ids. -/
theorem mem_markProcessed (s ids : List String) (x : String) :
    x ∈ markProcessed s ids ↔ x ∈ s ∨ x ∈ ids := by
  induction ids generalizing s with
  | nil => simp [markProcessed]
  | cons i is ih =>
    show x ∈ markProcessed (if s.contains i then s else s ++ [i]) is ↔ _
    rw [ih]
    cases hsi : s.contains i with
    | true =>
      rw [if_pos rfl]
      have hi : i ∈ s := List.elem_iff.mp hsi
      simp only [List.mem_cons]
      constructor
      · rintro (h | h)
        · exact Or.inl h
        · exact Or.inr (Or.inr h)
      · rintro (h | rfl | h)
        · exact Or.inl h
        · exact Or.inl hi
        · exact Or.inr h
    | false =>
      rw [if_neg Bool.false_ne_true]
      simp only [List.mem_append, List.mem_cons, List.not_mem_nil, or_false]
      constructor
      · rintro ((h | rfl) | h)
        · exact Or.inl h
        · exact Or.inr (Or.inl rfl)
        · exact Or.inr (Or.inr h)
      · rintro (h | rfl | h)
        · exact Or.inl (Or.inl h)
        · exact Or.inl (Or.inr rfl)
        · exact Or.inr h

/-- C4: `getUnprocessedMessages` returns an order-preserving subsequence
of its input containing exactly the messages whose id is not tracked (the
tracked set itself is only read); after `markProcessed ids`, no message
with an id in `ids` survives any later filter.  Concretely (spec §8): with
processed set `{m1}` and batch `[m1, m2]` the filter yields `[m2]`, and
after `markProcessed [m2]` it yields `[]`. -/
theorem dedup_filter_mark (s ids : List String) (msgs : List SlackMessage) :
    (getUnprocessedMessages s msgs).Sublist msgs ∧
    (∀ m, m ∈ getUnprocessedMessages s msgs ↔ m ∈ msgs ∧ m.id ∉ s) ∧
    (∀ m, m ∈ getUnprocessedMessages (markProcessed s ids) msgs → m.id ∉ ids) ∧
    getUnprocessedMessages ["m1"] [msgM1, msgM2] = [msgM2] ∧
    getUnprocessedMessages (markProcessed ["m1"] ["m2"]) [msgM1, msgM2] = [] := by
  have hmem : ∀ (s' : List String) (m : SlackMessage),
      m ∈ getUnprocessedMessages s' msgs ↔ m ∈ msgs ∧ m.id ∉ s' := by
    intro s' m
    simp [getUnprocessedMessages, List.mem_filter, contains_eq_false_iff]
  refine ⟨List.filter_sublist _, hmem s, ?_, rfl, rfl⟩
  intro m hm
  have h2 := ((hmem (markProcessed s ids) m).mp hm).2
  rw [mem_markProcessed] at h2
  exact fun h => h2 (Or.inr h)

/-- Witness for C4: after marking `m1` into an empty set, `m2` survives
the filter and its id is indeed not among the marked ids. -/
theorem dedup_filter_mark_witness :
    msgM2 ∈ getUnprocessedMessages (markProcessed [] ["m1"]) [msgM1, msgM2] ∧
    msgM2.id ∉ (["m1"] : List String) := by
  have h := (dedup_filter_mark [] ["m1"] [msgM1, msgM2]).2.2.1 msgM2
  have hm : msgM2 ∈ getUnprocessedMessages (markProcessed [] ["m1"]) [msgM1, msgM2] := by
    show msgM2 ∈ [msgM2]
    exact List.mem_singleton.mpr rfl
  exact ⟨hm, h hm⟩

/-! ## C7 — the message normalizer -/

/-- C7: the normalizer emits the message's own line, tagged with its id
and UTC date, first; with no thread replies the output is exactly that
line; with replies it is followed by the thread header and the reply
lines in original order, each tagged with the reply's id, derived date and
author label (the label falling back to a short author-id-derived
placeholder when the name is missing or empty).  Purity holds by
construction: `formatMessage` is a function of the message alone. -/
theorem normalizer_layout (m : SlackMessage) :
    ((m.threadReplies = none ∨ m.threadReplies = some []) →
      formatMessage m = parentLineSpec m) ∧
    (∀ r rs, m.threadReplies = some (r :: rs) →
      formatMessage m =
        parentLineSpec m ++ "\n  [Thread replies (" ++
          toString (r :: rs).length ++ "):]\n" ++
          String.intercalate "\n" ((r :: rs).map replyLineSpec)) := by
  constructor
  · rintro (h | h) <;> simp [formatMessage, h, parentLineSpec]
  · intro r rs h
    simp only [formatMessage, h]
    rfl

/-- Witness for C7 at a message with two thread replies, the second with
no author name (spec §8). -/
theorem normalizer_layout_witness :
    formatMessage msgParent =
      parentLineSpec msgParent ++ "\n  [Thread replies (" ++
        toString ([replyR1, replyR2]).length ++ "):]\n" ++
        String.intercalate "\n" ([replyR1, replyR2].map replyLineSpec) :=
  (normalizer_layout msgParent).2 replyR1 [replyR2] rfl

/-! ## C1 — a transport failure aborts the batch -/

/-- If every message before some point completes its step and the
response for the message at that point is a non-success, the loop result
is the transport error built from that response, whatever was accumulated
so far. -/
theorem extractLoop_transport (prompt : String) (cfg : LangfuseConfig)
    (repair : String → Option String)
    (responses : Nat → CompletionRequest → CompletionResponse)
    (failMsg : SlackMessage) (post : List SlackMessage) :
    ∀ (pre : List SlackMessage) (idx : Nat) (acc : List Json)
      (calls parseCalls : Nat) (progress : List (List Json × Nat)),
    prefixOk prompt cfg repair responses idx pre = true →
    (responses (idx + pre.length) (buildRequest prompt cfg failMsg)).ok = false →
    (extractLoop prompt cfg repair responses idx (pre ++ failMsg :: post)
        acc calls parseCalls progress).result =
      .error (.transport
        (responses (idx + pre.length) (buildRequest prompt cfg failMsg)).status
        (responses (idx + pre.length) (buildRequest prompt cfg failMsg)).statusText
        (responses (idx + pre.length) (buildRequest prompt cfg failMsg)).errorBody) := by
  intro pre
  induction pre with
  | nil =>
    intro idx acc calls parseCalls progress _ hfail
    simp only [List.length_nil, Nat.add_zero] at hfail ⊢
    simp [extractLoop, hfail]
  | cons m pre ih =>
    intro idx acc calls parseCalls progress hpre hfail
    have hpre2 : (stepOk prompt cfg repair responses idx m &&
        prefixOk prompt cfg repair responses (idx + 1) pre) = true := hpre
    rw [Bool.and_eq_true] at hpre2
    obtain ⟨hs, hp⟩ := hpre2
    have hs2 : ((responses idx (buildRequest prompt cfg m)).ok &&
        (match contentText (responses idx (buildRequest prompt cfg m)) with
         | none => true
         | some c =>
           match parseReleasesFromResponse repair c with
           | .ok _ => true
           | .error _ => false)) = true := hs
    rw [Bool.and_eq_true] at hs2
    obtain ⟨hok, hmt⟩ := hs2
    have harith : idx + (m :: pre).length = idx + 1 + pre.length := by
      simp [List.length_cons]
      omega
    rw [harith] at hfail ⊢
    rw [List.cons_append]
    cases hct : contentText (responses idx (buildRequest prompt cfg m)) with
    | none =>
      simp only [extractLoop, hok, if_true, hct]
      exact ih (idx + 1) acc (calls + 1) parseCalls progress hp hfail
    | some c =>
      rw [hct] at hmt
      cases hparse : parseReleasesFromResponse repair c with
      | error e => simp [hparse] at hmt
      | ok xs =>
        simp only [extractLoop, hok, if_true, hct, hparse]
        exact ih (idx + 1) (acc ++ xs) (calls + 1) (parseCalls + 1)
          (progress ++ [(acc ++ xs, idx)]) hp hfail

/-- C1: when the completion endpoint returns a non-success response for
some message of the batch (all earlier messages having completed their
step), the whole `extractReleases` call fails with the transport error
built from that response — the `.error` result carries no releases, so
everything accumulated for earlier messages is discarded — and the `run`
driver, extracting exactly this batch, leaves the persisted processed set
unchanged: no id from the batch is marked processed. -/
theorem transport_aborts_batch (env : ExtractEnv) (lr : LangfuseResult)
    (hen : env.langfuseEnabled = true) (hlk : env.promptLookup = some lr)
    (pre : List SlackMessage) (failMsg : SlackMessage) (post : List SlackMessage)
    (hpre : prefixOk lr.prompt lr.config env.repair env.responses 0 pre = true)
    (hfail : (env.responses pre.length
        (buildRequest lr.prompt lr.config failMsg)).ok = false) :
    (extractReleases env (pre ++ failMsg :: post)).result =
      .error (.transport
        (env.responses pre.length (buildRequest lr.prompt lr.config failMsg)).status
        (env.responses pre.length (buildRequest lr.prompt lr.config failMsg)).statusText
        (env.responses pre.length (buildRequest lr.prompt lr.config failMsg)).errorBody) ∧
    (∀ processedIds allMessages,
      getUnprocessedMessages processedIds allMessages = pre ++ failMsg :: post →
      (runModel env processedIds allMessages).2 = processedIds) := by
  have hne : (pre ++ failMsg :: post).isEmpty = false := by cases pre <;> rfl
  have hx : extractReleases env (pre ++ failMsg :: post) =
      extractLoop lr.prompt lr.config env.repair env.responses 0
        (pre ++ failMsg :: post) [] 0 0 [] := by
    simp [extractReleases, hne, hen, hlk]
  have hfail0 : (env.responses (0 + pre.length)
      (buildRequest lr.prompt lr.config failMsg)).ok = false := by
    rw [Nat.zero_add]; exact hfail
  have h0 := extractLoop_transport lr.prompt lr.config env.repair env.responses
    failMsg post pre 0 [] 0 0 [] hpre hfail0
  rw [Nat.zero_add] at h0
  have hres := hx ▸ h0
  refine ⟨hres, ?_⟩
  intro pid allM hun
  simp [runModel, hun, hne, hres]

/-- Witness for C1 (spec §8): HTTP 500 on the second of three messages;
the batch aborts with the transport error and a run over an initially
empty processed set persists nothing. -/
theorem transport_aborts_batch_witness :
    (extractReleases envTransport [msgM1, msgM2, msgM3]).result =
      .error (.transport 500 "Internal Server Error" "boom") ∧
    (runModel envTransport [] [msgM1, msgM2, msgM3]).2 = [] := by
  have h := transport_aborts_batch envTransport promptRes rfl rfl
    [msgM1] msgM2 [msgM3] (by decide) rfl
  exact ⟨h.1, h.2 [] [msgM1, msgM2, msgM3] rfl⟩

/-! ## C9 — per-message contributions -/

/-- A successful loop run returns the accumulator followed by the
concatenated per-message contributions, in message order. -/
theorem extractLoop_ok_eq_contributions (prompt : String) (cfg : LangfuseConfig)
    (repair : String → Option String)
    (responses : Nat → CompletionRequest → CompletionResponse) :
    ∀ (msgs : List SlackMessage) (idx : Nat) (acc : List Json)
      (calls parseCalls : Nat) (progress : List (List Json × Nat)) (rs : List Json),
    (extractLoop prompt cfg repair responses idx msgs
        acc calls parseCalls progress).result = .ok rs →
    rs = acc ++ batchContributions prompt cfg repair responses idx msgs := by
  intro msgs
  induction msgs with
  | nil =>
    intro idx acc calls parseCalls progress rs h
    simp only [extractLoop] at h
    simp [batchContributions, ← Except.ok.inj h]
  | cons m rest ih =>
    intro idx acc calls parseCalls progress rs h
    cases hok : (responses idx (buildRequest prompt cfg m)).ok with
    | false => simp [extractLoop, hok] at h
    | true =>
      cases hct : contentText (responses idx (buildRequest prompt cfg m)) with
      | none =>
        simp only [extractLoop, hok, if_true, hct] at h
        have := ih (idx + 1) acc (calls + 1) parseCalls progress rs h
        simpa [batchContributions, msgContribution, hct] using this
      | some c =>
        cases hparse : parseReleasesFromResponse repair c with
        | error e => simp [extractLoop, hok, hct, hparse] at h
        | ok xs =>
          simp only [extractLoop, hok, if_true, hct, hparse] at h
          have := ih (idx + 1) (acc ++ xs) (calls + 1) (parseCalls + 1)
            (progress ++ [(acc ++ xs, idx)]) rs h
          simpa [batchContributions, msgContribution, hct, hparse,
            List.append_assoc] using this

/-- C9 (amended): each message contributes the *entire* parsed list of its
response — zero or more releases, not at most one — and a successful
extraction returns exactly these contributions concatenated in message
order. -/
theorem releases_are_contributions_in_order (env : ExtractEnv)
    (lr : LangfuseResult) (msgs : List SlackMessage) (rs : List Json)
    (hen : env.langfuseEnabled = true) (hlk : env.promptLookup = some lr)
    (hok : (extractReleases env msgs).result = .ok rs) :
    rs = batchContributions lr.prompt lr.config env.repair env.responses 0 msgs := by
  cases msgs with
  | nil =>
    simp only [extractReleases, List.isEmpty_nil, if_true] at hok
    simp [batchContributions, ← Except.ok.inj hok]
  | cons m ms =>
    have hne : (m :: ms).isEmpty = false := rfl
    rw [show extractReleases env (m :: ms) =
        extractLoop lr.prompt lr.config env.repair env.responses 0 (m :: ms) [] 0 0 []
      from by simp [extractReleases, hne, hen, hlk]] at hok
    simpa using extractLoop_ok_eq_contributions lr.prompt lr.config env.repair
      env.responses (m :: ms) 0 [] 0 0 [] rs hok

/-- Counterexample to C9 as frozen: a single-message batch whose response
body is the two-element array `[1,2]` yields two release entries from that
one message, not "zero or one". -/
theorem single_message_two_releases :
    (extractReleases envTwoReleases [msgM1]).result =
      .ok [Json.num "1", Json.num "2"] ∧
    [msgM1].length = 1 :=
  ⟨rfl, rfl⟩

/-- Witness for the amended C9 at the two-release single-message run. -/
theorem releases_are_contributions_in_order_witness :
    [Json.num "1", Json.num "2"] =
      batchContributions "PROMPT" {} repairNone envTwoReleases.responses 0 [msgM1] :=
  releases_are_contributions_in_order envTwoReleases promptRes [msgM1]
    [Json.num "1", Json.num "2"] rfl rfl rfl

/-! ## C5 — fenced code blocks -/

/-- `splitNl` never returns the empty list of segments. -/
theorem splitNl_ne_nil (l : List Char) : splitNl l ≠ [] := by
  cases l with
  | nil => simp [splitNl]
  | cons c cs =>
    by_cases h : c = '\n'
    · simp [splitNl, h]
    · simp only [splitNl, if_neg h]
      cases splitNl cs with
      | nil => simp
      | cons a as => simp

/-- Splitting at newlines distributes over an explicit newline. -/
theorem splitNl_append_newline (x y : List Char) :
    splitNl (x ++ '\n' :: y) = splitNl x ++ splitNl y := by
  induction x with
  | nil => simp [splitNl]
  | cons c cs ih =>
    by_cases h : c = '\n'
    · subst h
      simp [splitNl, ih]
    · have hL : splitNl ((c :: cs) ++ '\n' :: y) =
          match splitNl (cs ++ '\n' :: y) with
          | hh :: tt => (c :: hh) :: tt
          | [] => [[c]] := by
        simp [splitNl, h]
      have hR : splitNl (c :: cs) =
          match splitNl cs with
          | hh :: tt => (c :: hh) :: tt
          | [] => [[c]] := by
        simp [splitNl, h]
      rw [hL, hR, ih]
      cases hsp : splitNl cs with
      | nil => exact absurd hsp (splitNl_ne_nil cs)
      | cons a as => simp

/-- Joining the newline-split segments restores the original text. -/
theorem joinNl_splitNl (l : List Char) : joinNl (splitNl l) = l := by
  induction l with
  | nil => rfl
  | cons c cs ih =>
    by_cases h : c = '\n'
    · subst h
      simp only [splitNl, if_pos rfl]
      cases hsp : splitNl cs with
      | nil => exact absurd hsp (splitNl_ne_nil cs)
      | cons a as =>
        rw [hsp] at ih
        simp [joinNl, ih]
    · simp only [splitNl, if_neg h]
      cases hsp : splitNl cs with
      | nil => exact absurd hsp (splitNl_ne_nil cs)
      | cons a as =>
        rw [hsp] at ih
        cases as with
        | nil =>
          simp only [joinNl] at ih ⊢
          rw [ih]
        | cons b bs =>
          simp only [joinNl, List.cons_append] at ih ⊢
          rw [ih]

/-- Trimming changes nothing when both ends are non-whitespace. -/
theorem trimChars_nonws_ends (a b : Char) (mid : List Char)
    (ha : isWsChar a = false) (hb : isWsChar b = false) :
    trimChars (a :: (mid ++ [b])) = a :: (mid ++ [b]) := by
  unfold trimChars
  rw [List.dropWhile_cons, ha]
  simp only [Bool.false_eq_true, if_false, List.reverse_cons, List.reverse_append,
    List.reverse_cons, List.reverse_nil, List.nil_append, List.cons_append,
    List.dropWhile_cons, hb, List.reverse_reverse, List.append_assoc]

/-- The character list of a fence-wrapped text, with the delimiters
exposed. -/
theorem wrapFence_data_eq (t : String) :
    (wrapFence t).data =
      '`' :: '`' :: '`' :: 'j' :: 's' :: 'o' :: 'n' :: '\n' ::
        (t.data ++ '\n' :: '`' :: '`' :: '`' :: []) := by
  show ("```json\n" ++ t ++ "\n```").data = _
  have h1 : ("```json\n" ++ t ++ "\n```").data =
      ("```json\n" : String).data ++ t.data ++ ("\n```" : String).data := rfl
  rw [h1]
  have h2 : ("```json\n" : String).data =
      '`' :: '`' :: '`' :: 'j' :: 's' :: 'o' :: 'n' :: '\n' :: [] := rfl
  have h3 : ("\n```" : String).data = '\n' :: '`' :: '`' :: '`' :: [] := rfl
  rw [h2, h3]
  simp

/-- A fence-wrapped text is already trimmed: it starts and ends with a
backtick. -/
theorem trimChars_wrapFence (t : String) :
    trimChars (wrapFence t).data = (wrapFence t).data := by
  rw [wrapFence_data_eq]
  have hsh : ('`' :: '`' :: '`' :: 'j' :: 's' :: 'o' :: 'n' :: '\n' ::
        (t.data ++ '\n' :: '`' :: '`' :: '`' :: []) : List Char) =
      '`' :: (('`' :: '`' :: 'j' :: 's' :: 'o' :: 'n' :: '\n' ::
        (t.data ++ '\n' :: '`' :: '`' :: [])) ++ ['`']) := by
    simp
  rw [hsh]
  exact trimChars_nonws_ends _ _ _ (by decide) (by decide)

/-- Stripping the fence from a wrapped text recovers the trimmed inner
text: the opening marker line and the trailing marker line are removed
before any parse attempt. -/
theorem stripFence_wrapFence (t : String) :
    stripFence (wrapFence t) = strTrim t := by
  unfold stripFence
  rw [trimChars_wrapFence, wrapFence_data_eq]
  rw [if_pos (by rfl)]
  have hsplit : splitNl ('`' :: '`' :: '`' :: 'j' :: 's' :: 'o' :: 'n' :: '\n' ::
        (t.data ++ '\n' :: '`' :: '`' :: '`' :: [])) =
      ('`' :: '`' :: '`' :: 'j' :: 's' :: 'o' :: 'n' :: []) ::
        (splitNl t.data ++ [('`' :: '`' :: '`' :: [])]) := by
    have h1 : ('`' :: '`' :: '`' :: 'j' :: 's' :: 'o' :: 'n' :: '\n' ::
          (t.data ++ '\n' :: '`' :: '`' :: '`' :: []) : List Char) =
        ('`' :: '`' :: '`' :: 'j' :: 's' :: 'o' :: 'n' :: []) ++ '\n' ::
          (t.data ++ '\n' :: ('`' :: '`' :: '`' :: [])) := by simp
    rw [h1, splitNl_append_newline, splitNl_append_newline]
    rfl
  rw [hsplit]
  simp only [List.drop_succ_cons, List.drop_zero]
  rw [List.getLast?_concat]
  simp only [Option.some.injEq]
  rw [if_pos (by rfl)]
  rw [List.dropLast_concat]
  rw [joinNl_splitNl]
  rfl

/-- When the text does not itself begin with a fence marker, stripping is
just trimming. -/
theorem stripFence_no_fence (t : String)
    (h : strStartsWith (strTrim t) "```" = false) :
    stripFence t = strTrim t := by
  unfold stripFence
  have h' : ('`' :: '`' :: '`' :: []).isPrefixOf (trimChars t.data) = false := h
  simp [h', strTrim]

/-- A fence-wrapped response always shows the markdown signal: it starts
with a fence marker. -/
theorem markdownSignal_wrapFence (t : String) :
    markdownSignal (wrapFence t) = true := by
  have hb : strStartsWith (strTrim (wrapFence t)) "```" = true := by
    show ("```" : String).data.isPrefixOf (trimChars (wrapFence t).data) = true
    rw [trimChars_wrapFence, wrapFence_data_eq]
    rfl
  unfold markdownSignal
  rw [hb]
  simp

/-- The parser pipeline, written out as one expression. -/
theorem parseReleases_eq_pipeline (repair : String → Option String) (t : String) :
    parseReleasesFromResponse repair t =
      (match tryParse (stripFence t) with
       | some parsed => .ok parsed
       | none =>
         match repair (stripFence t) with
         | some repaired =>
           match tryParse repaired with
           | some repairedParsed => .ok repairedParsed
           | none =>
             if markdownSignal t then .error .format else .error .parse
         | none =>
           if markdownSignal t then .error .format else .error .parse) := rfl

/-- C5 (amended): the opening marker line and the trailing marker line are
removed before any parse attempt, so for a text not itself beginning with
a fence marker the wrapped and unwrapped inputs strip to the same text and
every *successful* parse gives identical results; but when both the direct
parse and the repair fail, the wrapped input is always classified as the
markdown `FormatError`, which agrees with the unwrapped result only when
the inner text shows markdown signals of its own. -/
theorem fenced_wrapping_amended (repair : String → Option String) (t : String)
    (h : strStartsWith (strTrim t) "```" = false) :
    stripFence (wrapFence t) = stripFence t ∧
    (∀ rs, parseReleasesFromResponse repair t = .ok rs →
      parseReleasesFromResponse repair (wrapFence t) = .ok rs) ∧
    (∀ e, parseReleasesFromResponse repair t = .error e →
      parseReleasesFromResponse repair (wrapFence t) = .error .format) := by
  have hstrip : stripFence (wrapFence t) = stripFence t := by
    rw [stripFence_wrapFence, stripFence_no_fence t h]
  have hpipe_t := parseReleases_eq_pipeline repair t
  have hpipe_w := parseReleases_eq_pipeline repair (wrapFence t)
  rw [hstrip, markdownSignal_wrapFence] at hpipe_w
  simp only [if_pos rfl, if_true] at hpipe_w
  refine ⟨hstrip, ?_, ?_⟩
  · intro rs hok
    rw [hpipe_t] at hok
    rw [hpipe_w]
    cases htp : tryParse (stripFence t) with
    | some parsed => simp only [htp] at hok ⊢; exact hok
    | none =>
      simp only [htp] at hok ⊢
      cases hrep : repair (stripFence t) with
      | some r =>
        simp only [hrep] at hok ⊢
        cases htp2 : tryParse r with
        | some rp => simp only [htp2] at hok ⊢; exact hok
        | none =>
          cases hmk : markdownSignal t <;> simp [htp2, hmk] at hok
      | none =>
        cases hmk : markdownSignal t <;> simp [hrep, hmk] at hok
  · intro e herr
    rw [hpipe_t] at herr
    rw [hpipe_w]
    cases htp : tryParse (stripFence t) with
    | some parsed => simp only [htp] at herr; simp at herr
    | none =>
      simp only [htp] at herr ⊢
      cases hrep : repair (stripFence t) with
      | some r =>
        simp only [hrep] at herr ⊢
        cases htp2 : tryParse r with
        | some rp => simp only [htp2] at herr; simp at herr
        | none => simp only [htp2]
      | none => rfl

/-- Counterexample to C5 as frozen: on the empty response text (whose
repair fails, as `jsonrepair` does on input without JSON content), the
wrapped input is classified `FormatError` while the unwrapped input is the
generic `ParseError` — the two parses do not yield the same result. -/
theorem fenced_wrapping_counterexample :
    parseReleasesFromResponse repairNone (wrapFence "") = .error .format ∧
    parseReleasesFromResponse repairNone "" = .error .parse ∧
    (Except.error ParseFailure.format : Except ParseFailure (List Json)) ≠
      .error .parse := by
  refine ⟨rfl, rfl, ?_⟩
  intro hcontra
  exact ParseFailure.noConfusion (Except.error.inj hcontra)

/-- Witness for the amended C5: wrapping `[1,2]` in a fenced block strips
back to the inner text and parses to the same two entries. -/
theorem fenced_wrapping_amended_witness :
    stripFence (wrapFence "[1,2]") = stripFence "[1,2]" ∧
    parseReleasesFromResponse repairNone (wrapFence "[1,2]") =
      .ok [Json.num "1", Json.num "2"] := by
  have h := fenced_wrapping_amended repairNone "[1,2]" rfl
  exact ⟨h.1, h.2.1 [Json.num "1", Json.num "2"] rfl⟩

end SlackReleaseMonitor
